import Mathlib

/-!
Verification of the transaction-dispatch engine of the Diamante campaign CLI
(`src/diamante.js`, `src/cli.js`, and the browser-automation variant).

The engine is shallowly embedded: JS arrays become `List`, the random source
becomes an explicit function argument (one draw per loop index), HTTP
responses become a record of the fields the code inspects, thrown exceptions
become `Except.error`, and JS numbers used for amounts/delays become `Rat`.
Wall-clock sleeping is not modelled (only the computed wait durations are).
-/

namespace Diamante

/-! ## Fisher-Yates shuffle (src/diamante.js lines 66-73, duplicated inline in
src/cli.js lines 246-249 and the browser variant). -/

/-- One step of the shuffle body `[a[i], a[j]] = [a[j], a[i]]`.  In the source
the two indices are always in range (`j = Math.floor(Math.random()*(i+1)) ≤ i
< a.length`); the out-of-range case is padded as the identity to keep the
function total. -/
def listSwap {α : Type} (a : List α) (i j : Nat) : List α :=
  match a[i]?, a[j]? with
  | some x, some y => (a.set i y).set j x
  | _, _ => a

/-- The loop `for (let i = a.length - 1; i > 0; i--)` of `shuffle`, counting
the index `i` down; `rand i` models `Math.floor(Math.random() * (i + 1))`. -/
def fisherYatesAux {α : Type} (rand : Nat → Nat) : Nat → List α → List α
  | 0, a => a
  | i + 1, a => fisherYatesAux rand i (listSwap a (i + 1) (rand (i + 1)))

/-- Function `shuffle` from src/diamante.js lines 66-73: copy the input (`[...arr]`,
implicit here because lists are immutable) and run the swap loop from
`arr.length - 1` down to `1`. -/
def shuffle {α : Type} (rand : Nat → Nat) (arr : List α) : List α :=
  fisherYatesAux rand (arr.length - 1) arr

/-- Counting elements across a single in-range `List.set`: replacing the
element `x` stored at `i` by `y` trades one occurrence of `x` for one of `y`. -/
theorem count_set {α : Type} [DecidableEq α] (a : List α) (i : Nat) (x y z : α)
    (h : a[i]? = some x) :
    (a.set i y).count z + (if x = z then 1 else 0)
      = a.count z + (if y = z then 1 else 0) := by
  induction a generalizing i with
  | nil => simp at h
  | cons hd tl ih =>
    cases i with
    | zero =>
      simp only [List.getElem?_cons_zero, Option.some.injEq] at h
      subst h
      simp only [List.set_cons_zero, List.count_cons, beq_iff_eq]
      omega
    | succ n =>
      simp only [List.getElem?_cons_succ] at h
      have hrec := ih n h
      simp only [List.set_cons_succ, List.count_cons, beq_iff_eq]
      omega

/-- Swapping via `listSwap` never changes how often any element occurs. -/
theorem count_listSwap {α : Type} [DecidableEq α] (a : List α) (i j : Nat) (z : α) :
    (listSwap a i j).count z = a.count z := by
  cases hi : a[i]? with
  | none => simp [listSwap, hi]
  | some x =>
    cases hj : a[j]? with
    | none => simp [listSwap, hi, hj]
    | some y =>
      simp only [listSwap, hi, hj]
      by_cases hij : i = j
      · subst hij
        rw [hi] at hj
        injection hj with hxy
        subst hxy
        have h2 : (a.set i x)[i]? = some x := by
          rw [List.getElem?_set_self', hi]
          rfl
        have e1 := count_set a i x x z hi
        have e2 := count_set (a.set i x) i x x z h2
        omega
      · have hj2 : (a.set i y)[j]? = some y := by
          rw [List.getElem?_set_ne hij, hj]
        have e1 := count_set a i x y z hi
        have e2 := count_set (a.set i y) j y x z hj2
        omega

/-- Each swap is a permutation, so the whole loop is. -/
theorem fisherYatesAux_perm {α : Type} [DecidableEq α] (rand : Nat → Nat) :
    ∀ (n : Nat) (a : List α), List.Perm (fisherYatesAux rand n a) a := by
  intro n
  induction n with
  | zero => intro a; exact List.Perm.refl a
  | succ m ih =>
    intro a
    have h1 := ih (listSwap a (m + 1) (rand (m + 1)))
    have h2 : List.Perm (listSwap a (m + 1) (rand (m + 1))) a :=
      List.perm_iff_count.mpr (fun z => count_listSwap a (m + 1) (rand (m + 1)) z)
    exact List.Perm.trans h1 h2

/-- Shuffling returns a permutation of the input, for every random source. -/
theorem shuffle_perm {α : Type} [DecidableEq α] (rand : Nat → Nat) (arr : List α) :
    List.Perm (shuffle rand arr) arr :=
  fisherYatesAux_perm rand (arr.length - 1) arr

/-! ## Queue builder (src/diamante.js lines 195-203; same loop inline in
src/cli.js lines 239-249). -/

/-- The nested loops of `buildQueue`: for each wallet in input order push
`sendPerWallet` copies of it. -/
def buildQueueBase (wallets : List String) (sendPerWallet : Nat) : List String :=
  wallets.flatMap (fun w => List.replicate sendPerWallet w)

/-- Function `buildQueue` from src/diamante.js lines 195-203: replicate then
shuffle. -/
def buildQueue (rand : Nat → Nat) (wallets : List String) (sendPerWallet : Nat) :
    List String :=
  shuffle rand (buildQueueBase wallets sendPerWallet)

theorem buildQueueBase_length (wallets : List String) (k : Nat) :
    (buildQueueBase wallets k).length = wallets.length * k := by
  induction wallets with
  | nil => simp [buildQueueBase]
  | cons hd tl ih =>
    simp only [buildQueueBase, List.flatMap_cons, List.length_append,
      List.length_replicate, List.length_cons, Nat.succ_mul] at ih ⊢
    omega

theorem buildQueueBase_count (wallets : List String) (k : Nat) (w : String) :
    (buildQueueBase wallets k).count w = k * wallets.count w := by
  induction wallets with
  | nil => simp [buildQueueBase]
  | cons hd tl ih =>
    simp only [buildQueueBase, List.flatMap_cons, List.count_append,
      List.count_replicate, List.count_cons, beq_iff_eq, Nat.mul_succ] at ih ⊢
    by_cases h : hd = w <;> simp [h, Nat.mul_succ] at ih ⊢ <;> omega

/-- C1: for a non-empty duplicate-free recipient list `R` and `k ≥ 1` sends per
wallet, the built queue (replicate then Fisher-Yates shuffle) has length
`|R| * k` and every recipient of `R` occurs in it exactly `k` times, for every
random source. -/
theorem buildQueue_complete (rand : Nat → Nat) (wallets : List String) (k : Nat)
    (hne : wallets ≠ []) (hnd : wallets.Nodup) (hk : 1 ≤ k) :
    (buildQueue rand wallets k).length = wallets.length * k ∧
    ∀ w ∈ wallets, (buildQueue rand wallets k).count w = k := by
  have hperm := shuffle_perm rand (buildQueueBase wallets k)
  constructor
  · rw [buildQueue, List.Perm.length_eq hperm, buildQueueBase_length]
  · intro w hw
    rw [buildQueue, List.Perm.count_eq hperm w, buildQueueBase_count,
      List.count_eq_one_of_mem hnd hw, Nat.mul_one]

/-- Concrete check of `buildQueue_complete` on two wallets and two sends each. -/
theorem buildQueue_complete_witness :
    (["0xAAA", "0xBBB"] ≠ ([] : List String)) ∧
    (["0xAAA", "0xBBB"] : List String).Nodup ∧ 1 ≤ 2 ∧
    ((buildQueue (fun _ => 0) ["0xAAA", "0xBBB"] 2).length = 2 * 2 ∧
      ∀ w ∈ ["0xAAA", "0xBBB"], (buildQueue (fun _ => 0) ["0xAAA", "0xBBB"] 2).count w = 2) :=
  ⟨by decide, by decide, by decide,
    buildQueue_complete (fun _ => 0) ["0xAAA", "0xBBB"] 2 (by decide) (by decide) (by decide)⟩

/-- C10: `shuffle` is a pure permutation: it returns a list holding exactly the
multiset of elements of its (unmodified) input, for every random source. -/
theorem shuffle_pure_perm {α : Type} [DecidableEq α] (rand : Nat → Nat) (arr : List α) :
    List.Perm (shuffle rand arr) arr ∧
    Multiset.ofList (shuffle rand arr) = Multiset.ofList arr :=
  ⟨shuffle_perm rand arr, Multiset.coe_eq_coe.mpr (shuffle_perm rand arr)⟩

/-! ## One transfer submission with rate-limit retries
(src/diamante.js lines 121-189 `DiamanteSender.send`;
src/cli.js lines 99-125 `sendTransaction` and 275-285 the retry loop). -/

/-- The fields of one attempt's HTTP response that the code inspects:
`res.status` and, from the parsed JSON body, `data.status`,
`data.success === true`, `data.message`, `data.error`.  String fields that are
absent or empty (JS falsy) are modelled as `none`.  `dataSerialized` stands
for `JSON.stringify(data).slice(0, 60)`, kept opaque because the code never
branches on it. -/
structure FetchResult where
  resStatus : Nat
  dataStatus : Option Nat
  dataSuccess : Bool
  dataMessage : Option String
  dataError : Option String
  dataSerialized : String
deriving DecidableEq

/-- A terminal result of `DiamanteSender.send`: the code returns either
`{success: true, ...}` or `{success: false, error, ...}`.  The hash, address
and amount payloads of the returned object are claim-irrelevant and elided. -/
inductive SendResult where
  | success
  | failure (error : String)
deriving DecidableEq

/-- The running statistics `this.stats` of `DiamanteSender` (line 98).  The
`start` timestamp is not modelled; elapsed time enters the summary as a
parameter. -/
structure Stats where
  total : Nat
  success : Nat
  failed : Nat
  amount : Rat
deriving DecidableEq

/-- src/diamante.js line 154: `data.status === 429 || res.status === 429`. -/
def isRateLimited429 (d : FetchResult) : Bool :=
  d.dataStatus == some 429 || d.resStatus == 429

/-- src/diamante.js line 179: `data.message || data.error ||
JSON.stringify(data).slice(0, 60)`. -/
def errMsg (d : FetchResult) : String :=
  match d.dataMessage with
  | some m => m
  | none =>
    match d.dataError with
    | some e => e
    | none => d.dataSerialized

/-- Method `DiamanteSender.send` (src/diamante.js lines 121-189).  `f rc` is the
outcome of the fetch attempt at `retryCount = rc` (`Except.error e` models a
thrown exception with message `e`); `maxRetries` generalizes the constant
`MAX_RETRIES = 3`; `amt` is the amount and `s` the running statistics, which
`total`-increments only on the first attempt and settles exactly one of
`success`/`failed` on the terminal outcome, as the source does. -/
def send (f : Nat → Except String FetchResult) (maxRetries : Nat) (amt : Rat)
    (rc : Nat) (s : Stats) : SendResult × Stats :=
  let s1 := if rc = 0 then { s with total := s.total + 1 } else s
  match f rc with
  | .error e => (.failure e, { s1 with failed := s1.failed + 1 })
  | .ok d =>
    if h : isRateLimited429 d = true ∧ rc < maxRetries then
      send f maxRetries amt (rc + 1) s1
    else if d.dataSuccess then
      (.success, { s1 with success := s1.success + 1, amount := s1.amount + amt })
    else
      (.failure (errMsg d), { s1 with failed := s1.failed + 1 })
termination_by maxRetries - rc
decreasing_by exact Nat.sub_lt_sub_left h.2 (Nat.lt_succ_self rc)

/-- Instrumentation of `send`: how many underlying fetch attempts it makes,
following exactly the same branch structure. -/
def sendAttempts (f : Nat → Except String FetchResult) (maxRetries rc : Nat) : Nat :=
  match f rc with
  | .error _ => 1
  | .ok d =>
    if h : isRateLimited429 d = true ∧ rc < maxRetries then
      1 + sendAttempts f maxRetries (rc + 1)
    else 1
termination_by maxRetries - rc
decreasing_by exact Nat.sub_lt_sub_left h.2 (Nat.lt_succ_self rc)

/-- Instrumentation of `send`: the successive rate-limit waits (in seconds) it
performs, each computed by line 156, `waitTime = 5 + retryCount * 3`. -/
def sendWaits (f : Nat → Except String FetchResult) (maxRetries rc : Nat) : List Nat :=
  match f rc with
  | .error _ => []
  | .ok d =>
    if h : isRateLimited429 d = true ∧ rc < maxRetries then
      (5 + rc * 3) :: sendWaits f maxRetries (rc + 1)
    else []
termination_by maxRetries - rc
decreasing_by exact Nat.sub_lt_sub_left h.2 (Nat.lt_succ_self rc)

/-- JS `startsWith` on character lists (helper for `includes`). -/
def startsWithChars : List Char → List Char → Bool
  | [], _ => true
  | _ :: _, [] => false
  | p :: ps, c :: cs => p == c && startsWithChars ps cs

/-- JS `String.prototype.includes`, on character lists. -/
def includesChars (pat : List Char) : List Char → Bool
  | [] => pat.isEmpty
  | c :: cs => startsWithChars pat (c :: cs) || includesChars pat cs

/-- src/cli.js line 110: `data.status === 429 || res.status === 429 ||
(data.message && data.message.includes('guardian'))`. -/
def cliIsRateLimited (d : FetchResult) : Bool :=
  d.dataStatus == some 429 || d.resStatus == 429 ||
    (match d.dataMessage with
     | some m => includesChars "guardian".toList m.toList
     | none => false)

/-- One outcome of `sendTransaction` (src/cli.js lines 99-125): terminal
success or failure, or the `{retry: true, waitTime, retryCount}` marker the
caller loops on.  The hash payload is elided. -/
inductive CliOutcome where
  | success
  | failure (error : String)
  | retry (waitTime retryCount : Nat)
deriving DecidableEq

def CliOutcome.isRetry : CliOutcome → Bool
  | .retry _ _ => true
  | _ => false

/-- Function `sendTransaction` (src/cli.js lines 99-125): a single attempt; on a
rate-limit signal with budget left it returns the retry marker with
`waitTime = 15 + retryCount * 10` and the incremented `retryCount`. -/
def sendTransaction (f : Nat → Except String FetchResult) (maxRetries rc : Nat) :
    CliOutcome :=
  match f rc with
  | .error e => .failure e
  | .ok d =>
    if cliIsRateLimited d = true ∧ rc < maxRetries then
      .retry (15 + rc * 10) (rc + 1)
    else if d.dataSuccess then .success
    else .failure (d.dataMessage.getD "Failed")

/-- The `while (result.retry)` loop of `runSending` (src/cli.js lines
275-285), instrumented: the second component counts the `sendTransaction`
invocations (one underlying fetch each) made so far.  The fuel argument is an
embedding artifact; `retryLoop_le` shows that `maxRetries + 1` fuel is never
exhausted, because every retry marker carries a strictly larger retry count. -/
def retryLoop (f : Nat → Except String FetchResult) (maxRetries : Nat) :
    Nat → CliOutcome → Nat → CliOutcome × Nat
  | 0, o, c => (o, c)
  | fuel + 1, o, c =>
    match o with
    | .retry _ rc => retryLoop f maxRetries fuel (sendTransaction f maxRetries rc) (c + 1)
    | o => (o, c)

/-- The retry-wrapped submission of src/cli.js: the initial `sendTransaction`
call (line 272) followed by the retry loop, with its invocation count. -/
def submitWithRetry (f : Nat → Except String FetchResult) (maxRetries : Nat) :
    CliOutcome × Nat :=
  retryLoop f maxRetries (maxRetries + 1) (sendTransaction f maxRetries 0) 1

/-- Inversion: a retry marker is only produced with budget left, and carries
the incremented count and the linear wait time. -/
theorem sendTransaction_retry (f : Nat → Except String FetchResult) (m rc w rc2 : Nat)
    (h : sendTransaction f m rc = .retry w rc2) :
    rc2 = rc + 1 ∧ rc < m ∧ w = 15 + rc * 10 := by
  unfold sendTransaction at h
  cases hf : f rc with
  | error e =>
    rw [hf] at h
    exact absurd h (by simp)
  | ok d =>
    rw [hf] at h
    simp only at h
    by_cases hc : cliIsRateLimited d = true ∧ rc < m
    · rw [if_pos hc] at h
      injection h with h1 h2
      exact ⟨h2.symm, hc.2, h1.symm⟩
    · rw [if_neg hc] at h
      by_cases hs : d.dataSuccess = true <;> simp [hs] at h

/-- With fuel exceeding the remaining budget, the loop ends on a non-retry
outcome after at most `m - rc` further invocations. -/
theorem retryLoop_le (f : Nat → Except String FetchResult) (m : Nat) :
    ∀ fuel rc c, m < rc + fuel →
      (retryLoop f m fuel (sendTransaction f m rc) c).1.isRetry = false ∧
      (retryLoop f m fuel (sendTransaction f m rc) c).2 ≤ c + (m - rc) := by
  intro fuel
  induction fuel with
  | zero =>
    intro rc c hlt
    cases ho : sendTransaction f m rc with
    | retry w rc2 =>
      have := sendTransaction_retry f m rc w rc2 ho
      omega
    | success => simp [retryLoop, ho, CliOutcome.isRetry]
    | failure e => simp [retryLoop, ho, CliOutcome.isRetry]
  | succ g ih =>
    intro rc c hlt
    cases ho : sendTransaction f m rc with
    | retry w rc2 =>
      obtain ⟨h1, h2, -⟩ := sendTransaction_retry f m rc w rc2 ho
      subst h1
      have hrec := ih (rc + 1) (c + 1) (by omega)
      simp only [retryLoop]
      exact ⟨hrec.1, by omega⟩
    | success => simp [retryLoop, ho, CliOutcome.isRetry]
    | failure e => simp [retryLoop, ho, CliOutcome.isRetry]

/-- The attempt count is bounded by the remaining budget plus one. -/
theorem sendAttempts_le (f : Nat → Except String FetchResult) (m : Nat) :
    ∀ gas rc, m - rc ≤ gas → sendAttempts f m rc ≤ m - rc + 1 := by
  intro gas
  induction gas with
  | zero =>
    intro rc h
    unfold sendAttempts
    cases hf : f rc with
    | error e => simp
    | ok d =>
      simp only
      rw [dif_neg (fun hc => absurd hc.2 (by omega))]
      omega
  | succ g ih =>
    intro rc h
    unfold sendAttempts
    cases hf : f rc with
    | error e => simp
    | ok d =>
      simp only
      by_cases hc : isRateLimited429 d = true ∧ rc < m
      · rw [dif_pos hc]
        have := ih (rc + 1) (by omega)
        omega
      · rw [dif_neg hc]
        omega

/-- C2: the retry-wrapped submission with retry budget `maxRetries = n` makes
at most `n + 1` underlying submit attempts (both in `DiamanteSender.send`,
counted by `sendAttempts`, and in the cli retry loop, counted by
`submitWithRetry`), and the outcome the cli loop returns is never the
rate-limited marker: it is success or failure. -/
theorem retry_bounded_terminal (f : Nat → Except String FetchResult) (n : Nat) :
    (submitWithRetry f n).1.isRetry = false ∧
    (submitWithRetry f n).2 ≤ n + 1 ∧
    sendAttempts f n 0 ≤ n + 1 := by
  have h := retryLoop_le f n (n + 1) 0 1 (by omega)
  have ha := sendAttempts_le f n n 0 (by omega)
  simp only [submitWithRetry]
  exact ⟨h.1, by omega, by omega⟩

/-- Helper: a submitter that is rate-limited and unsuccessful on every attempt
drives `send` to the end of its budget and into the generic failure branch,
which reports the message carried by the response. -/
theorem send_const_rate_limited (d : FetchResult) (m : Nat) (amt : Rat)
    (h1 : isRateLimited429 d = true) (h2 : d.dataSuccess = false) :
    ∀ gas rc s, m - rc ≤ gas →
      (send (fun _ => Except.ok d) m amt rc s).1 = SendResult.failure (errMsg d) := by
  intro gas
  induction gas with
  | zero =>
    intro rc s h
    unfold send
    simp only
    rw [dif_neg (fun hc => absurd hc.2 (by omega)), if_neg (by simp [h2])]
  | succ g ih =>
    intro rc s h
    unfold send
    simp only
    by_cases hc : isRateLimited429 d = true ∧ rc < m
    · rw [dif_pos hc]
      exact ih (rc + 1) _ (by omega)
    · rw [dif_neg hc, if_neg (by simp [h2])]

/-- A concrete always-rate-limited response: HTTP 429 carrying the API's own
message text. -/
def d429 : FetchResult :=
  { resStatus := 429, dataStatus := some 429, dataSuccess := false,
    dataMessage := some "too many requests", dataError := none,
    dataSerialized := "status 429" }

/-- C6 counterexample: with the retry budget exhausted while every attempt is
rate-limited, `send` returns a failure carrying the API-supplied message
("too many requests" here), which is not the literal "rate limit exceeded"
the claim states. -/
theorem rate_limit_reason_not_literal :
    (send (fun _ => Except.ok d429) 3 1 0 ⟨0, 0, 0, 0⟩).1
        = SendResult.failure "too many requests" ∧
    SendResult.failure "too many requests" ≠ SendResult.failure "rate limit exceeded" := by
  constructor
  · have h := send_const_rate_limited d429 3 1 rfl rfl 3 0 ⟨0, 0, 0, 0⟩ (by omega)
    exact h
  · simp

/-- C6 (amended): when the retry budget is exhausted while every attempt is
still rate-limited (and not successful), the submission returns a `failure`
whose reason is the message the response itself carries (`data.message`, else
`data.error`, else the serialized body) — not the fixed string
"rate limit exceeded". -/
theorem rate_limit_exhaustion_reason (d : FetchResult) (m : Nat) (amt : Rat) (s : Stats)
    (h1 : isRateLimited429 d = true) (h2 : d.dataSuccess = false) :
    (send (fun _ => Except.ok d) m amt 0 s).1 = SendResult.failure (errMsg d) :=
  send_const_rate_limited d m amt h1 h2 m 0 s (by omega)

/-- Concrete check of `rate_limit_exhaustion_reason` at the response `d429`. -/
theorem rate_limit_exhaustion_reason_witness :
    isRateLimited429 d429 = true ∧ d429.dataSuccess = false ∧
    (send (fun _ => Except.ok d429) 3 2 0 ⟨0, 0, 0, 0⟩).1
        = SendResult.failure (errMsg d429) :=
  ⟨rfl, rfl, rate_limit_exhaustion_reason d429 3 2 ⟨0, 0, 0, 0⟩ rfl rfl⟩

/-- The k-th rate-limit wait recorded for attempt start `rc` is
`5 + (rc + k) * 3` seconds. -/
theorem sendWaits_linear (f : Nat → Except String FetchResult) (m : Nat) :
    ∀ gas rc k w, m - rc ≤ gas → (sendWaits f m rc)[k]? = some w →
      w = 5 + (rc + k) * 3 := by
  intro gas
  induction gas with
  | zero =>
    intro rc k w h hw
    unfold sendWaits at hw
    cases hf : f rc with
    | error e => simp only [hf] at hw; simp at hw
    | ok d =>
      simp only [hf] at hw
      rw [dif_neg (fun hc => absurd hc.2 (by omega))] at hw
      simp at hw
  | succ g ih =>
    intro rc k w h hw
    unfold sendWaits at hw
    cases hf : f rc with
    | error e => simp only [hf] at hw; simp at hw
    | ok d =>
      simp only [hf] at hw
      by_cases hc : isRateLimited429 d = true ∧ rc < m
      · rw [dif_pos hc] at hw
        cases k with
        | zero =>
          simp only [List.getElem?_cons_zero, Option.some.injEq] at hw
          omega
        | succ k2 =>
          simp only [List.getElem?_cons_succ] at hw
          have := ih (rc + 1) k2 w (by omega) hw
          omega
      · rw [dif_neg hc] at hw
        simp at hw

/-- Unfolding step of `sendWaits` while rate-limited with budget left. -/
theorem sendWaits_cons (f : Nat → Except String FetchResult) (m rc : Nat) (d : FetchResult)
    (hf : f rc = Except.ok d) (h1 : isRateLimited429 d = true) (h2 : rc < m) :
    sendWaits f m rc = (5 + rc * 3) :: sendWaits f m (rc + 1) := by
  conv_lhs => unfold sendWaits
  simp only [hf]
  rw [dif_pos ⟨h1, h2⟩]

/-- Terminal step of `sendWaits`. -/
theorem sendWaits_nil (f : Nat → Except String FetchResult) (m rc : Nat) (d : FetchResult)
    (hf : f rc = Except.ok d) (h : ¬(isRateLimited429 d = true ∧ rc < m)) :
    sendWaits f m rc = [] := by
  unfold sendWaits
  simp only [hf]
  rw [dif_neg h]

/-- C7: rate-limit backoff is attempt-indexed and linear, never
multiplicative: the k-th wait of a `DiamanteSender.send` run is exactly
`5 + k * 3` seconds (fixed base 5, fixed increment 3 per attempt), and the
wait carried by the cli retry marker produced at attempt `rc` is exactly
`15 + rc * 10` seconds (fixed base 15, fixed increment 10 per attempt). -/
theorem backoff_linear (f : Nat → Except String FetchResult) (m : Nat) :
    (∀ k w, (sendWaits f m 0)[k]? = some w → w = 5 + k * 3) ∧
    (∀ rc w rc2, sendTransaction f m rc = CliOutcome.retry w rc2 → w = 15 + rc * 10) := by
  constructor
  · intro k w hw
    have := sendWaits_linear f m m 0 k w (by omega) hw
    omega
  · intro rc w rc2 h
    exact (sendTransaction_retry f m rc w rc2 h).2.2

/-- Concrete check of `backoff_linear`: the run against `d429` waits
5, 8, 11 seconds, and its second wait is `5 + 1 * 3`. -/
theorem backoff_linear_witness :
    (sendWaits (fun _ => Except.ok d429) 3 0)[1]? = some 8 ∧ 8 = 5 + 1 * 3 := by
  have hlist : sendWaits (fun _ => Except.ok d429) 3 0 = [5, 8, 11] := by
    rw [sendWaits_cons _ 3 0 d429 rfl rfl (by omega),
      sendWaits_cons _ 3 1 d429 rfl rfl (by omega),
      sendWaits_cons _ 3 2 d429 rfl rfl (by omega),
      sendWaits_nil _ 3 3 d429 rfl (fun hc => absurd hc.2 (by omega))]
  have h1 : (sendWaits (fun _ => Except.ok d429) 3 0)[1]? = some 8 := by
    rw [hlist]
    rfl
  exact ⟨h1, (backoff_linear (fun _ => Except.ok d429) 3).1 1 8 h1⟩

/-! ## Dispatch loop (src/diamante.js lines 191-253 `DiamanteSender.sendRound`,
single round, i.e. `continuous = false`). -/

/-- How one `send` changes the statistics: exactly one `total` increment (on
the first attempt only), exactly one of `success`/`failed`, and the amount
added exactly when the outcome is success. -/
theorem send_stats (f : Nat → Except String FetchResult) (m : Nat) (amt : Rat) :
    ∀ gas rc s, m - rc ≤ gas →
      (send f m amt rc s).2.total = s.total + (if rc = 0 then 1 else 0) ∧
      (send f m amt rc s).2.success
          = s.success + (if (send f m amt rc s).1 = SendResult.success then 1 else 0) ∧
      (send f m amt rc s).2.failed
          = s.failed + (if (send f m amt rc s).1 = SendResult.success then 0 else 1) ∧
      (send f m amt rc s).2.amount
          = s.amount + (if (send f m amt rc s).1 = SendResult.success then amt else 0) := by
  intro gas
  induction gas with
  | zero =>
    intro rc s h
    unfold send
    cases hf : f rc with
    | error e =>
      simp only [hf]
      by_cases hz : rc = 0 <;> simp [hz]
    | ok d =>
      simp only [hf]
      simp only [dif_neg (fun hc : isRateLimited429 d = true ∧ rc < m =>
        absurd hc.2 (by omega))]
      by_cases hs : d.dataSuccess = true <;> by_cases hz : rc = 0 <;>
        simp [hs, hz]
  | succ g ih =>
    intro rc s h
    unfold send
    cases hf : f rc with
    | error e =>
      simp only [hf]
      by_cases hz : rc = 0 <;> simp [hz]
    | ok d =>
      simp only [hf]
      by_cases hc : isRateLimited429 d = true ∧ rc < m
      · simp only [dif_pos hc]
        by_cases hz : rc = 0
        · obtain ⟨i1, i2, i3, i4⟩ :=
            ih (rc + 1) { s with total := s.total + 1 } (by omega)
          simp only [hz, if_pos rfl, if_neg (Nat.succ_ne_zero rc)] at i1 i2 i3 i4 ⊢
          refine ⟨by simp [i1], by simpa using i2, by simpa using i3, by simpa using i4⟩
        · obtain ⟨i1, i2, i3, i4⟩ := ih (rc + 1) s (by omega)
          simp only [if_neg hz, if_neg (Nat.succ_ne_zero rc)] at i1 i2 i3 i4 ⊢
          refine ⟨by simp [i1], by simpa using i2, by simpa using i3, by simpa using i4⟩
      · simp only [dif_neg hc]
        by_cases hs : d.dataSuccess = true <;> by_cases hz : rc = 0 <;>
          simp [hs, hz]

/-- The per-task loop of `sendRound` (src/diamante.js lines 220-234): `subs i`
is the submitter for task `i` and `acc` the mutable `results` array.  The
third component is the exception the enclosing `try`/`catch` of lines 208-249
would observe; `cancelAt = some j` would deliver at the boundary of task `j`
the `'interrupted'` exception that the catch of lines 247-249 is written to
swallow.  Nothing in the repository ever throws `'interrupted'` — that catch
is dead code — so the theorems below use only `cancelAt = none` (the plain
loop); the program's real cancellation channel, SIGINT, is modelled by
`runWithSigint`. -/
def sendRoundLoop (subs : Nat → Nat → Except String FetchResult) (maxRetries : Nat)
    (amt : Rat) (cancelAt : Option Nat) :
    List String → Nat → List SendResult → Stats →
    List SendResult × Stats × Option String
  | [], _, acc, s => (acc, s, none)
  | _ :: rest, i, acc, s =>
    if cancelAt = some i then (acc, s, some "interrupted")
    else
      let p := send (subs i) maxRetries amt 0 s
      sendRoundLoop subs maxRetries amt cancelAt rest (i + 1) (acc ++ [p.1]) p.2

/-- Loop invariant for an uncancelled run: one result and one settled task per
queue entry, with the amount accumulating over the successful results. -/
theorem sendRoundLoop_stats (subs : Nat → Nat → Except String FetchResult)
    (m : Nat) (amt : Rat) :
    ∀ (queue : List String) (i : Nat) (acc : List SendResult) (s : Stats),
      ∃ (rs2 : List SendResult) (s2 : Stats),
        sendRoundLoop subs m amt none queue i acc s = (acc ++ rs2, s2, none) ∧
        rs2.length = queue.length ∧
        s2.total = s.total + queue.length ∧
        s2.success + s2.failed = s.success + s.failed + queue.length ∧
        s2.amount = s.amount
          + (rs2.map (fun r => if r = SendResult.success then amt else 0)).sum := by
  intro queue
  induction queue with
  | nil =>
    intro i acc s
    exact ⟨[], s, by simp [sendRoundLoop], rfl, by simp, by simp, by simp⟩
  | cons w rest ih =>
    intro i acc s
    obtain ⟨t1, t2, t3, t4⟩ := send_stats (subs i) m amt m 0 s (by omega)
    norm_num at t1
    obtain ⟨rs2, s2, heq, hlen, ht, hsf, ha⟩ :=
      ih (i + 1) (acc ++ [(send (subs i) m amt 0 s).1]) (send (subs i) m amt 0 s).2
    refine ⟨(send (subs i) m amt 0 s).1 :: rs2, s2, ?_, by simp [hlen], ?_, ?_, ?_⟩
    · simp only [sendRoundLoop, if_neg (by simp : ¬(none = some i))]
      rw [heq]
      simp [List.append_assoc]
    · rw [ht, t1]
      simp only [List.length_cons]
      omega
    · rw [hsf]
      simp only [List.length_cons]
      by_cases hps : (send (subs i) m amt 0 s).1 = SendResult.success
      · rw [if_pos hps] at t2 t3
        omega
      · rw [if_neg hps] at t2 t3
        omega
    · rw [ha, t4]
      simp only [List.map_cons, List.sum_cons]
      ring

/-- C3: after the dispatch loop processes a queue of length `N` with no
cancellation, no error is pending, there are `N` results, the statistics
satisfy `success + failed = total = N`, and the accumulated amount is the sum
of the amounts of exactly the tasks whose outcome was success. -/
theorem dispatch_stats_consistent (subs : Nat → Nat → Except String FetchResult)
    (m : Nat) (amt : Rat) (queue : List String) :
    (sendRoundLoop subs m amt none queue 0 [] ⟨0, 0, 0, 0⟩).2.2 = none ∧
    (sendRoundLoop subs m amt none queue 0 [] ⟨0, 0, 0, 0⟩).1.length = queue.length ∧
    (sendRoundLoop subs m amt none queue 0 [] ⟨0, 0, 0, 0⟩).2.1.total = queue.length ∧
    (sendRoundLoop subs m amt none queue 0 [] ⟨0, 0, 0, 0⟩).2.1.success
        + (sendRoundLoop subs m amt none queue 0 [] ⟨0, 0, 0, 0⟩).2.1.failed
        = queue.length ∧
    (sendRoundLoop subs m amt none queue 0 [] ⟨0, 0, 0, 0⟩).2.1.amount
        = ((sendRoundLoop subs m amt none queue 0 [] ⟨0, 0, 0, 0⟩).1.map
            (fun r => if r = SendResult.success then amt else 0)).sum := by
  obtain ⟨rs2, s2, heq, hlen, ht, hsf, ha⟩ :=
    sendRoundLoop_stats subs m amt queue 0 [] ⟨0, 0, 0, 0⟩
  rw [heq]
  simp only [List.nil_append]
  refine ⟨by trivial, by simpa using hlen, by simpa using ht, by simpa using hsf,
    by simpa using ha⟩

/-- A concrete successful response. -/
def dOK : FetchResult :=
  { resStatus := 200, dataStatus := some 200, dataSuccess := true,
    dataMessage := none, dataError := none, dataSerialized := "ok" }

/-- A process-level outcome of one round: either the dispatch loop returns
(its results and statistics reach the caller), or the process exits first
with the given code and the loop never returns. -/
inductive RunOutcome where
  | completed (results : List SendResult) (stats : Stats)
  | exited (code : Nat)
deriving DecidableEq

/-- The dispatch loop under the program's real cancellation channel: the only
cancellation in the source is SIGINT, whose handler (src/diamante.js lines
437-440) calls `process.exit(130)` on the spot.  `sigintAt = some j` delivers
the signal at the boundary of task `j`: the process exits with code 130, the
loop never returns, and the results collected so far are discarded (no
summary is printed).  Without a signal the loop is the one of
`sendRoundLoop` and completes normally. -/
def runWithSigint (subs : Nat → Nat → Except String FetchResult) (maxRetries : Nat)
    (amt : Rat) (sigintAt : Option Nat) :
    List String → Nat → List SendResult → Stats → RunOutcome
  | [], _, acc, s => .completed acc s
  | _ :: rest, i, acc, s =>
    if sigintAt = some i then .exited 130
    else
      let p := send (subs i) maxRetries amt 0 s
      runWithSigint subs maxRetries amt sigintAt rest (i + 1) (acc ++ [p.1]) p.2

/-- C5: under the program's actual cancellation, a run of the 4-task queue
built from two wallets with two sends each, interrupted after 2 tasks, exits
the process with code 130: the dispatch loop never returns, so no result
sequence of length 2 (and no summary) is produced, although both processed
tasks succeeded.  The graceful path the claim describes exists only as dead
code: the `'interrupted'`-swallowing catch of src/diamante.js lines 247-249
is never reached because nothing in the repository throws `'interrupted'`. -/
theorem cancellation_exits_without_results :
    runWithSigint (fun _ _ => Except.ok dOK) 3 1 (some 2)
        (buildQueue (fun _ => 0) ["0xAAA", "0xBBB"] 2) 0 [] ⟨0, 0, 0, 0⟩
      = RunOutcome.exited 130 := by
  rfl

/-! ## Summary (src/diamante.js lines 270-283 `printSummary`). -/

/-- Line 273 of `printSummary`: `tps = elapsed > 0 ? s.total / elapsed : 0`,
with `elapsed` the elapsed seconds (0 when the run never started). -/
def throughput (s : Stats) (elapsed : Rat) : Rat :=
  if elapsed > 0 then (s.total : Rat) / elapsed else 0

/-- C9: the reported throughput equals `total / elapsedSeconds` whenever the
(nonnegative) elapsed time is nonzero, and equals `0` when it is zero — the
zero case is guarded, never divided. -/
theorem throughput_no_div_error (s : Stats) (elapsed : Rat) (h : 0 ≤ elapsed) :
    (elapsed ≠ 0 → throughput s elapsed = (s.total : Rat) / elapsed) ∧
    (elapsed = 0 → throughput s elapsed = 0) := by
  constructor
  · intro hne
    unfold throughput
    rw [if_pos (lt_of_le_of_ne h (Ne.symm hne))]
  · intro h0
    unfold throughput
    rw [if_neg (by rw [h0]; exact lt_irrefl 0)]

/-- Concrete check of `throughput_no_div_error`: 6 transactions over 2 seconds
and over 0 seconds. -/
theorem throughput_no_div_error_witness :
    throughput ⟨6, 6, 0, 6⟩ 2 = ((⟨6, 6, 0, 6⟩ : Stats).total : Rat) / 2 ∧
    throughput ⟨6, 6, 0, 6⟩ 0 = 0 :=
  ⟨(throughput_no_div_error ⟨6, 6, 0, 6⟩ 2 (by norm_num)).1 (by norm_num),
   (throughput_no_div_error ⟨6, 6, 0, 6⟩ 0 (le_refl 0)).2 rfl⟩

/-! ## Configuration resolution and validation (src/diamante.js lines 387-444
`main`). -/

/-- JS `a || b` on an optional numeric setting: `0` (like absence) is falsy
and falls through to the alternative. -/
def jsOr (a : Option Nat) (b : Nat) : Nat :=
  match a with
  | some n => if n = 0 then b else n
  | none => b

/-- Line 405: `opts.sendPerWallet || config?.sendPerWallet || 2`. -/
def resolveSendPerWallet (optsSends cfgSends : Option Nat) : Nat :=
  jsOr optsSends (jsOr cfgSends 2)

/-- What `main` decides after resolving the configuration: a fatal
configuration error, or an invocation of the dispatch loop with the resolved
sends-per-wallet (which determines the queue length). -/
inductive MainOutcome where
  | configError (message : String)
  | dispatched (sendPerWallet queueLength : Nat)
deriving DecidableEq

/-- The validation and dispatch decision of `main` (src/diamante.js lines
419-427 and 442): reject a missing token, then an empty wallet list, else run
`sendRound` on the resolved configuration. -/
def mainRun (token : Option String) (wallets : List String)
    (optsSends cfgSends : Option Nat) : MainOutcome :=
  if token = none then .configError "--token is required"
  else if wallets.length = 0 then .configError "No wallets provided"
  else
    .dispatched (resolveSendPerWallet optsSends cfgSends)
      (wallets.length * resolveSendPerWallet optsSends cfgSends)

/-- C4 counterexample: with `sendsPerWallet = 0` supplied (token present, one
wallet, no config fallback), `main` raises no configuration error — JS `||`
treats `0` as falsy, so the default `2` silently takes its place and the
dispatch loop is invoked on a queue of length 2. -/
theorem sends_zero_dispatches :
    mainRun (some "token") ["0xAAA"] (some 0) none = MainOutcome.dispatched 2 2 ∧
    ∀ msg ∈ ["--token is required", "No wallets provided"],
      MainOutcome.dispatched 2 2 ≠ MainOutcome.configError msg := by
  exact ⟨rfl, by decide⟩

/-- C4 (amended): an empty recipient list (with a token present) is rejected
with a configuration error before the dispatch loop runs; but
`sendsPerWallet = 0` raises no configuration error: JS `||` treats it as
absent, the config value or default `2` silently takes its place, and the
dispatch loop is invoked. -/
theorem config_error_amended (token : String) (wallets : List String)
    (optsSends cfgSends : Option Nat) :
    (wallets = [] →
      mainRun (some token) wallets optsSends cfgSends
        = MainOutcome.configError "No wallets provided") ∧
    (mainRun (some token) wallets (some 0) cfgSends
        = mainRun (some token) wallets none cfgSends) ∧
    (wallets ≠ [] →
      mainRun (some token) wallets (some 0) none
        = MainOutcome.dispatched 2 (wallets.length * 2)) := by
  refine ⟨?_, ?_, ?_⟩
  · intro hw
    subst hw
    rfl
  · unfold mainRun
    rw [show resolveSendPerWallet (some 0) cfgSends
          = resolveSendPerWallet none cfgSends from rfl]
  · intro hw
    unfold mainRun
    rw [if_neg (by simp), if_neg (by simp [List.length_eq_zero, hw])]
    rfl

/-- Concrete check of `config_error_amended`. -/
theorem config_error_amended_witness :
    (mainRun (some "t") [] (some 3) none
        = MainOutcome.configError "No wallets provided") ∧
    (mainRun (some "t") ["0xAAA"] (some 0) none
        = mainRun (some "t") ["0xAAA"] none none) ∧
    (mainRun (some "t") ["0xAAA"] (some 0) none
        = MainOutcome.dispatched 2 (["0xAAA"].length * 2)) :=
  ⟨(config_error_amended "t" [] (some 3) none).1 rfl,
   (config_error_amended "t" ["0xAAA"] (some 0) none).2.1,
   (config_error_amended "t" ["0xAAA"] (some 0) none).2.2 (by simp)⟩

/-! ## Jittered inter-task delay (src/diamante.js lines 44-48 `humanDelay` and
220-221; src/cli.js lines 256-269). -/

/-- The duration of `humanDelay` (src/diamante.js line 45): `MIN_DELAY +
Math.random() * (MAX_DELAY - MIN_DELAY)`, with the random draw `r ∈ [0, 1)`
made explicit. -/
def humanDelay (minD maxD r : Rat) : Rat := minD + r * (maxD - minD)

/-- The interactive CLI's delay (src/cli.js line 261): `Math.floor(minDelay +
Math.random() * (maxDelay - minDelay))`, a whole number of seconds. -/
def cliDelay (minD maxD r : Rat) : Int := ⌊minD + r * (maxD - minD)⌋

/-- An observable step of the dispatch loop: a sleep of the given number of
seconds, or the dispatch of one task. -/
inductive Event where
  | delay (seconds : Rat)
  | send (recipient : String)
deriving DecidableEq

/-- The events of iteration `i`: both loops guard the sleep with `if (i > 0)`
(src/diamante.js line 221 with `iter = 1`; src/cli.js line 260) and then
dispatch the task.  The delay duration at index `i` is `d i`. -/
def taskEvents (d : Nat → Rat) (i : Nat) (w : String) : List Event :=
  (if i > 0 then [Event.delay (d i)] else []) ++ [Event.send w]

/-- The loop `for (let i = 0; i < queue.length; i++)` of one round, emitting
its delay and task events in order. -/
def loopEvents (d : Nat → Rat) : Nat → List String → List Event
  | _, [] => []
  | i, w :: ws => taskEvents d i w ++ loopEvents d (i + 1) ws

/-- The direct-API engine's round events (src/diamante.js, round 1). -/
def roundEvents (rand : Nat → Rat) (minD maxD : Rat) (queue : List String) :
    List Event :=
  loopEvents (fun i => humanDelay minD maxD (rand i)) 0 queue

/-- The interactive CLI's run events (src/cli.js lines 256-269). -/
def cliRunEvents (rand : Nat → Rat) (minD maxD : Rat) (queue : List String) :
    List Event :=
  loopEvents (fun i => ((cliDelay minD maxD (rand i) : Int) : Rat)) 0 queue

/-- The shape stated by the spec: every task is preceded by exactly one
delay. -/
def delayedEvents (d : Nat → Rat) : Nat → List String → List Event
  | _, [] => []
  | i, w :: ws => Event.delay (d i) :: Event.send w :: delayedEvents d (i + 1) ws

/-- From index 1 on, the loop inserts a delay before every task. -/
theorem loopEvents_pos (d : Nat → Rat) :
    ∀ (ws : List String) (i : Nat), 0 < i →
      loopEvents d i ws = delayedEvents d i ws := by
  intro ws
  induction ws with
  | nil => intro i h; rfl
  | cons w rest ih =>
    intro i h
    simp only [loopEvents, delayedEvents, taskEvents, if_pos h]
    rw [ih (i + 1) (by omega)]
    simp

/-- C8 counterexample: with the interactive CLI's default delay range
92.4-143.7 seconds (src/cli.js lines 229-230) and a random draw of 0, the
inserted delay is `⌊92.4⌋ = 92` seconds — strictly below `delayRange.min`, so
the delay is not drawn from `[delayRange.min, delayRange.max]`. -/
theorem cli_jitter_below_min :
    cliDelay (462 / 5) (1437 / 10) 0 = 92 ∧
    ¬((462 / 5 : Rat) ≤ ((92 : Int) : Rat)) ∧
    cliRunEvents (fun _ => 0) (462 / 5) (1437 / 10) ["0xAAA", "0xBBB"]
      = [Event.send "0xAAA", Event.delay ((92 : Int) : Rat), Event.send "0xBBB"] := by
  have hfloor : cliDelay (462 / 5) (1437 / 10) 0 = 92 := by
    unfold cliDelay
    rw [show (462 / 5 + 0 * (1437 / 10 - 462 / 5) : Rat) = 462 / 5 by ring,
      Int.floor_eq_iff]
    constructor <;> norm_num
  refine ⟨hfloor, by norm_num, ?_⟩
  simp [cliRunEvents, loopEvents, taskEvents, hfloor]

/-- C8 (amended): in both engines one jittered delay precedes every task
except the first and no delay precedes the first task; the direct-API
engine's delay `min + r * (max - min)` lies in `[min, max]` for every draw
`r ∈ [0, 1]`, while the interactive CLI floors the drawn value to a whole
second, giving a delay in `[min - 1, max]` that can fall below
`delayRange.min`. -/
theorem jitter_placement_amended (rand : Nat → Rat) (minD maxD : Rat)
    (w : String) (ws : List String)
    (hr : ∀ i, 0 ≤ rand i ∧ rand i ≤ 1) (hle : minD ≤ maxD) :
    roundEvents rand minD maxD (w :: ws)
      = Event.send w :: delayedEvents (fun i => humanDelay minD maxD (rand i)) 1 ws ∧
    cliRunEvents rand minD maxD (w :: ws)
      = Event.send w
          :: delayedEvents (fun i => ((cliDelay minD maxD (rand i) : Int) : Rat)) 1 ws ∧
    (∀ i, minD ≤ humanDelay minD maxD (rand i) ∧
      humanDelay minD maxD (rand i) ≤ maxD) ∧
    (∀ i, minD - 1 ≤ ((cliDelay minD maxD (rand i) : Int) : Rat) ∧
      ((cliDelay minD maxD (rand i) : Int) : Rat) ≤ maxD) := by
  refine ⟨?_, ?_, ?_, ?_⟩
  · simp only [roundEvents, loopEvents, taskEvents, if_neg (lt_irrefl 0)]
    rw [loopEvents_pos _ ws 1 (by omega)]
    simp
  · simp only [cliRunEvents, loopEvents, taskEvents, if_neg (lt_irrefl 0)]
    rw [loopEvents_pos _ ws 1 (by omega)]
    simp
  · intro i
    obtain ⟨h0, h1⟩ := hr i
    unfold humanDelay
    constructor
    · nlinarith
    · nlinarith
  · intro i
    obtain ⟨h0, h1⟩ := hr i
    have hin : minD ≤ minD + rand i * (maxD - minD) := by nlinarith
    have hax : minD + rand i * (maxD - minD) ≤ maxD := by nlinarith
    unfold cliDelay
    constructor
    · have hfl := Int.sub_one_lt_floor (minD + rand i * (maxD - minD))
      linarith
    · have hfl := Int.floor_le (minD + rand i * (maxD - minD))
      linarith

/-- Concrete check of `jitter_placement_amended`: two tasks, draw 1/2,
range [1, 4]. -/
theorem jitter_placement_amended_witness :
    roundEvents (fun _ => (1 / 2 : Rat)) 1 4 ["0xAAA", "0xBBB"]
      = Event.send "0xAAA"
          :: delayedEvents (fun i => humanDelay 1 4 ((fun _ => (1 / 2 : Rat)) i)) 1
            ["0xBBB"] :=
  (jitter_placement_amended (fun _ => (1 / 2 : Rat)) 1 4 "0xAAA" ["0xBBB"]
    (fun _ => ⟨by norm_num, by norm_num⟩) (by norm_num)).1

end Diamante
